import Mathlib

/-!
Verification of the Base64 FFI codec (`src/rust/src/ffi/base64.rs`).

The FFI layer under `src/` dispatches to decoders from `crate::utils::base64`
(`decode_rfc2045`, `decode_rfc4648`) and to the engines of the external
`base64` crate (`STANDARD`, `STANDARD_NO_PAD`, and a pad-indifferent
`GeneralPurpose` engine).  Those decoders/encoders are not part of the
source sample, so they are modelled here from the specification; the FFI
dispatch, null checks, overflow check, buffer writes and the size
calculator are embedded directly from the Rust source.

Bytes are modelled as `Nat` (with explicit `< 256` bounds where relevant),
buffers as `List Nat`, raw pointers as `Option` / null flags, and the
C `c_ulong` type as `Nat` with explicit reduction modulo `2 ^ 64` where
overflow matters.
-/

namespace Base64Spec

/-- Width of `c_ulong` on the target platform (LP64). -/
def ULONG_MOD : Nat := 2 ^ 64

/-- The mode enum from `src/rust/src/ffi/base64.rs` (`SCBase64Mode`). -/
inductive SCBase64Mode where
  | SCBase64ModeRFC2045
  | SCBase64ModeStrict
  | SCBase64ModeRFC4648
  | SCBase64ModeNoPad
  | SCBase64ModePadOpt
deriving DecidableEq, Repr

/-- The return-code enum from `src/rust/src/ffi/base64.rs` (`SCBase64ReturnCode`). -/
inductive SCBase64ReturnCode where
  | SC_BASE64_OK
  | SC_BASE64_INVALID_ARG
  | SC_BASE64_OVERFLOW
deriving DecidableEq, Repr

/-- Modelled from the spec: the canonical 64-symbol Base64 alphabet
(glossary of the spec; the `base64` crate's `STANDARD` alphabet, which is
not part of the source sample).  Maps a 6-bit value to its ASCII byte. -/
def eChar (v : Nat) : Nat :=
  if v < 26 then 65 + v
  else if v < 52 then 97 + (v - 26)
  else if v < 62 then 48 + (v - 52)
  else if v = 62 then 43
  else 47

/-- Modelled from the spec: classification of an input byte as a Base64
alphabet symbol (yielding its 6-bit value) or not.  The padding byte `=`
(61) is not in the alphabet. -/
def decodeChar (c : Nat) : Option Nat :=
  if 65 ≤ c ∧ c ≤ 90 then some (c - 65)
  else if 97 ≤ c ∧ c ≤ 122 then some (c - 71)
  else if 48 ≤ c ∧ c ≤ 57 then some (c + 4)
  else if c = 43 then some 62
  else if c = 47 then some 63
  else none

/-- Modelled from the spec: a full 4-symbol group of 6-bit values emits
3 decoded bytes. -/
def emitGroup (v1 v2 v3 v4 : Nat) : List Nat :=
  [v1 * 4 + v2 / 16, v2 % 16 * 16 + v3 / 4, v3 % 4 * 64 + v4]

/-- Modelled from the spec: best-effort decoding of a trailing group of
fewer than 4 symbols: 2 symbols yield 1 byte, 3 symbols yield 2 bytes,
fewer than 2 yield nothing. -/
def leftoverDecode : List Nat → List Nat
  | [v1, v2] => [v1 * 4 + v2 / 16]
  | [v1, v2, v3] => [v1 * 4 + v2 / 16, v2 % 16 * 16 + v3 / 4]
  | _ => []

/-- Modelled from the spec: core loop of the RFC 2045 decoder
(`crate::utils::base64::decode_rfc2045`, not part of the source sample).
Any byte outside the alphabet (whitespace, padding, other) is skipped; valid
symbols accumulate in a 4-slot window, each full window emitting 3 bytes;
a trailing window is decoded best effort at end of input. -/
def d2045core (window out : List Nat) : List Nat → List Nat
  | [] => out ++ leftoverDecode window
  | c :: rest =>
    match decodeChar c with
    | none => d2045core window out rest
    | some v =>
      match window with
      | [v1, v2, v3] => d2045core [] (out ++ emitGroup v1 v2 v3 v) rest
      | w => d2045core (w ++ [v]) out rest

/-- Modelled from the spec: the RFC 2045 "skip" dialect decoder, returning
the decoded bytes. -/
def decode_rfc2045 (input : List Nat) : List Nat := d2045core [] [] input

/-- Modelled from the spec: core loop of the RFC 4648 decoder
(`crate::utils::base64::decode_rfc4648`, not part of the source sample).
On the first byte outside the alphabet, decoding stops immediately: the
pending window is decoded best effort and the result returned.  Valid
symbols accumulate 4 at a time as in the skip dialect. -/
def d4648core (window out : List Nat) : List Nat → List Nat
  | [] => out ++ leftoverDecode window
  | c :: rest =>
    match decodeChar c with
    | none => out ++ leftoverDecode window
    | some v =>
      match window with
      | [v1, v2, v3] => d4648core [] (out ++ emitGroup v1 v2 v3 v) rest
      | w => d4648core (w ++ [v]) out rest

/-- Modelled from the spec: the RFC 4648 "stop" dialect decoder, returning
the decoded bytes. -/
def decode_rfc4648 (input : List Nat) : List Nat := d4648core [] [] input

/-- Modelled from the spec: the canonical strict standard decoder
(the `base64` crate's `STANDARD.decode_slice`, not part of the source
sample).  The whole input is rejected unless it consists of full 4-symbol
groups with exact trailing padding; on success the decoded bytes are
returned. -/
def decodeStrict : List Nat → Except Unit (List Nat)
  | [] => .ok []
  | [c1, c2, c3, c4] =>
    match decodeChar c1, decodeChar c2 with
    | some v1, some v2 =>
      if c3 = 61 then
        if c4 = 61 then .ok [v1 * 4 + v2 / 16] else .error ()
      else
        match decodeChar c3 with
        | some v3 =>
          if c4 = 61 then .ok [v1 * 4 + v2 / 16, v2 % 16 * 16 + v3 / 4]
          else
            match decodeChar c4 with
            | some v4 => .ok (emitGroup v1 v2 v3 v4)
            | none => .error ()
        | none => .error ()
    | _, _ => .error ()
  | c1 :: c2 :: c3 :: c4 :: rest =>
    match decodeChar c1, decodeChar c2, decodeChar c3, decodeChar c4 with
    | some v1, some v2, some v3, some v4 =>
      match decodeStrict rest with
      | .ok l => .ok (emitGroup v1 v2 v3 v4 ++ l)
      | .error e => .error e
    | _, _, _, _ => .error ()
  | _ => .error ()

/-- Modelled from the spec: the canonical no-padding strict decoder
(the `base64` crate's `STANDARD_NO_PAD.decode_slice`, not part of the
source sample).  The padding byte is not in the alphabet; a trailing
group of 2 or 3 symbols is accepted, a trailing single symbol rejected. -/
def decodeNoPad : List Nat → Except Unit (List Nat)
  | [] => .ok []
  | [_] => .error ()
  | [c1, c2] =>
    match decodeChar c1, decodeChar c2 with
    | some v1, some v2 => .ok [v1 * 4 + v2 / 16]
    | _, _ => .error ()
  | [c1, c2, c3] =>
    match decodeChar c1, decodeChar c2, decodeChar c3 with
    | some v1, some v2, some v3 => .ok [v1 * 4 + v2 / 16, v2 % 16 * 16 + v3 / 4]
    | _, _, _ => .error ()
  | c1 :: c2 :: c3 :: c4 :: rest =>
    match decodeChar c1, decodeChar c2, decodeChar c3, decodeChar c4 with
    | some v1, some v2, some v3, some v4 =>
      match decodeNoPad rest with
      | .ok l => .ok (emitGroup v1 v2 v3 v4 ++ l)
      | .error e => .error e
    | _, _, _, _ => .error ()

/-- Modelled from the spec: the pad-indifferent decoder (the `base64`
crate's `GeneralPurpose` engine with `DecodePaddingMode::Indifferent`,
not part of the source sample).  Input is accepted either with exact
trailing padding or entirely unpadded. -/
def decodePadOpt (input : List Nat) : Except Unit (List Nat) :=
  match decodeStrict input with
  | .ok l => .ok l
  | .error _ => decodeNoPad input

/-- Modelled from the spec: the canonical padded Base64 encoder
(the `base64` crate's `STANDARD.encode`, not part of the source sample). -/
def encodePad : List Nat → List Nat
  | [] => []
  | [a] => [eChar (a / 4), eChar (a % 4 * 16), 61, 61]
  | [a, b] => [eChar (a / 4), eChar (a % 4 * 16 + b / 16), eChar (b % 16 * 4), 61]
  | a :: b :: c :: rest =>
    eChar (a / 4) :: eChar (a % 4 * 16 + b / 16) :: eChar (b % 16 * 4 + c / 64)
      :: eChar (c % 64) :: encodePad rest

/-- Modelled from the spec: the unpadded Base64 encoder (the `base64`
crate's `STANDARD_NO_PAD.encode`, not part of the source sample). -/
def encodeNoPad : List Nat → List Nat
  | [] => []
  | [a] => [eChar (a / 4), eChar (a % 4 * 16)]
  | [a, b] => [eChar (a / 4), eChar (a % 4 * 16 + b / 16), eChar (b % 16 * 4)]
  | a :: b :: c :: rest =>
    eChar (a / 4) :: eChar (a % 4 * 16 + b / 16) :: eChar (b % 16 * 4 + c / 64)
      :: eChar (c % 64) :: encodeNoPad rest

/-- Writing `bytes` at the start of buffer `buf`, leaving the tail
untouched (models consecutive slice writes starting at index 0). -/
def writeBytes (buf bytes : List Nat) : List Nat :=
  bytes ++ buf.drop bytes.length

/-- Embedding of `SCBase64Decode` from `src/rust/src/ffi/base64.rs`.
A null input pointer is `none`; the input slice built from the pointer and
`len` is the list itself (`len = input.length`); the output buffer is the
caller slice of `len` bytes, returned alongside the `u32` count.  For the
two custom dialects the error path and the fall-through path both return
`num_decoded`, so only the count matters; for the three canonical modes an
error leaves `num_decoded` at 0. -/
def SCBase64Decode (input : Option (List Nat)) (mode : SCBase64Mode)
    (output : List Nat) : Nat × List Nat :=
  match input with
  | none => (0, output)
  | some inp =>
    if inp.length = 0 then (0, output)
    else
      let decoded : List Nat :=
        match mode with
        | .SCBase64ModeRFC2045 => decode_rfc2045 inp
        | .SCBase64ModeRFC4648 => decode_rfc4648 inp
        | .SCBase64ModeStrict =>
          match decodeStrict inp with
          | .ok l => l
          | .error _ => []
        | .SCBase64ModeNoPad =>
          match decodeNoPad inp with
          | .ok l => l
          | .error _ => []
        | .SCBase64ModePadOpt =>
          match decodePadOpt inp with
          | .ok l => l
          | .error _ => []
      (decoded.length, writeBytes output decoded)

/-- Result of an encode call: status code, output buffer contents, and the
value of the in/out `output_len` parameter after the call. -/
structure EncodeResult where
  status : SCBase64ReturnCode
  output : List Nat
  output_len : Nat
deriving DecidableEq, Repr

/-- The encoded text `SCBase64EncodeWithMode` produces for a given mode:
`STANDARD_NO_PAD.encode` for `SCBase64ModeNoPad`, `STANDARD.encode` for
every other mode (the `match` at lines 155-158 of the source). -/
def encodedFor (mode : SCBase64Mode) (input : List Nat) : List Nat :=
  match mode with
  | .SCBase64ModeNoPad => encodeNoPad input
  | _ => encodePad input

/-- Embedding of `SCBase64EncodeWithMode` from `src/rust/src/ffi/base64.rs`.
The three null-pointer checks are boolean flags; `input` is the slice of
`input_len` bytes; `output` is the caller's buffer and `output_len` the
declared capacity.  On overflow, nothing is written and the capacity is
untouched; otherwise the encoded bytes and a zero sentinel are written at
the start of the buffer and the capacity is overwritten with the encoded
length. -/
def SCBase64EncodeWithMode (inputNull outputNull outputLenNull : Bool)
    (input : List Nat) (output : List Nat) (output_len : Nat)
    (mode : SCBase64Mode) : EncodeResult :=
  if inputNull || outputNull || outputLenNull then
    ⟨.SC_BASE64_INVALID_ARG, output, output_len⟩
  else
    let encoded := encodedFor mode input
    if encoded.length + 1 > output_len then
      ⟨.SC_BASE64_OVERFLOW, output, output_len⟩
    else
      ⟨.SC_BASE64_OK, writeBytes output (encoded ++ [0]), encoded.length⟩

/-- Embedding of `SCBase64Encode` from `src/rust/src/ffi/base64.rs`: a
direct call of `SCBase64EncodeWithMode` with `SCBase64ModeStrict`. -/
def SCBase64Encode (inputNull outputNull outputLenNull : Bool)
    (input : List Nat) (output : List Nat) (output_len : Nat) : EncodeResult :=
  SCBase64EncodeWithMode inputNull outputNull outputLenNull input output
    output_len .SCBase64ModeStrict

/-- Embedding of `SCBase64EncodeBufferSize` from
`src/rust/src/ffi/base64.rs`: `(4 * ((len) + 2) / 3) + 1` on `c_ulong`,
with every intermediate operation wrapping modulo `2 ^ 64`. -/
def SCBase64EncodeBufferSize (len : Nat) : Nat :=
  (4 * ((len + 2) % ULONG_MOD) % ULONG_MOD / 3 + 1) % ULONG_MOD

/-- The buffer-size formula the spec states for the encoder:
`ceil(len / 3) * 4 + 1`. -/
def specCeilBufferSize (len : Nat) : Nat := (len + 2) / 3 * 4 + 1

theorem leftoverDecode_length (w : List Nat) :
    4 * (leftoverDecode w).length ≤ 3 * w.length := by
  rcases w with _ | ⟨a, _ | ⟨b, _ | ⟨c, _ | ⟨d, t⟩⟩⟩⟩ <;> simp [leftoverDecode]

theorem emitGroup_length (v1 v2 v3 v4 : Nat) : (emitGroup v1 v2 v3 v4).length = 3 := by
  simp [emitGroup]

theorem d2045core_length (rest : List Nat) : ∀ window out : List Nat,
    4 * (d2045core window out rest).length ≤
      4 * out.length + 3 * window.length + 3 * rest.length := by
  induction rest with
  | nil =>
    intro window out
    have h := leftoverDecode_length window
    simp [d2045core]
    omega
  | cons c rest ih =>
    intro window out
    simp only [d2045core]
    cases hdc : decodeChar c with
    | none =>
      have h := ih window out
      simp only [List.length_cons]
      omega
    | some v =>
      rcases window with _ | ⟨v1, _ | ⟨v2, _ | ⟨v3, _ | ⟨v4, t⟩⟩⟩⟩
      · have h := ih [v] out
        simp only [List.nil_append, List.length_cons, List.length_nil] at h ⊢
        omega
      · have h := ih [v1, v] out
        simp only [List.cons_append, List.nil_append, List.length_cons, List.length_nil] at h ⊢
        omega
      · have h := ih [v1, v2, v] out
        simp only [List.cons_append, List.nil_append, List.length_cons, List.length_nil] at h ⊢
        omega
      · have h := ih [] (out ++ emitGroup v1 v2 v3 v)
        simp only [List.length_append, emitGroup_length, List.length_cons, List.length_nil] at h ⊢
        omega
      · have h := ih (v1 :: v2 :: v3 :: v4 :: t ++ [v]) out
        simp only [List.cons_append, List.length_append, List.length_cons, List.length_nil] at h ⊢
        omega

theorem d4648core_length (rest : List Nat) : ∀ window out : List Nat,
    4 * (d4648core window out rest).length ≤
      4 * out.length + 3 * window.length + 3 * rest.length := by
  induction rest with
  | nil =>
    intro window out
    have h := leftoverDecode_length window
    simp [d4648core]
    omega
  | cons c rest ih =>
    intro window out
    simp only [d4648core]
    cases hdc : decodeChar c with
    | none =>
      have h := leftoverDecode_length window
      simp only [List.length_append, List.length_cons]
      omega
    | some v =>
      rcases window with _ | ⟨v1, _ | ⟨v2, _ | ⟨v3, _ | ⟨v4, t⟩⟩⟩⟩
      · have h := ih [v] out
        simp only [List.nil_append, List.length_cons, List.length_nil] at h ⊢
        omega
      · have h := ih [v1, v] out
        simp only [List.cons_append, List.nil_append, List.length_cons, List.length_nil] at h ⊢
        omega
      · have h := ih [v1, v2, v] out
        simp only [List.cons_append, List.nil_append, List.length_cons, List.length_nil] at h ⊢
        omega
      · have h := ih [] (out ++ emitGroup v1 v2 v3 v)
        simp only [List.length_append, emitGroup_length, List.length_cons, List.length_nil] at h ⊢
        omega
      · have h := ih (v1 :: v2 :: v3 :: v4 :: t ++ [v]) out
        simp only [List.cons_append, List.length_append, List.length_cons, List.length_nil] at h ⊢
        omega

theorem decodeStrict_length : ∀ l out, decodeStrict l = .ok out →
    4 * out.length ≤ 3 * l.length := by
  intro l
  induction l using decodeStrict.induct <;> intro out h <;>
    simp_all [decodeStrict] <;> subst h <;>
    simp_all [emitGroup] <;> omega

theorem decodeNoPad_length : ∀ l out, decodeNoPad l = .ok out →
    4 * out.length ≤ 3 * l.length := by
  intro l
  induction l using decodeNoPad.induct <;> intro out h <;>
    simp_all [decodeNoPad] <;> subst h <;>
    simp_all [emitGroup] <;> omega

theorem decodePadOpt_length : ∀ l out, decodePadOpt l = .ok out →
    4 * out.length ≤ 3 * l.length := by
  intro l out h
  unfold decodePadOpt at h
  cases hs : decodeStrict l with
  | ok l2 =>
    rw [hs] at h
    cases h
    exact decodeStrict_length l out hs
  | error e =>
    rw [hs] at h
    exact decodeNoPad_length l out h

theorem decodeChar_eChar : ∀ v : Nat, v < 64 → decodeChar (eChar v) = some v := by decide

theorem eChar_ne_pad : ∀ v : Nat, v < 64 → eChar v ≠ 61 := by decide

theorem encodePad_eq_nil : ∀ l : List Nat, encodePad l = [] ↔ l = [] := by
  intro l
  cases l with
  | nil => simp [encodePad]
  | cons a t =>
    cases t with
    | nil => simp [encodePad]
    | cons b t2 => cases t2 <;> simp [encodePad]

theorem decodeStrict_encodePad : ∀ l : List Nat, (∀ x ∈ l, x < 256) →
    decodeStrict (encodePad l) = .ok l := by
  intro l
  induction l using encodePad.induct with
  | case1 => intro h; rfl
  | case2 a =>
    intro h
    have ha : a < 256 := h a (by simp)
    have h1 := decodeChar_eChar (a / 4) (by omega)
    have h2 := decodeChar_eChar (a % 4 * 16) (by omega)
    simp [encodePad, decodeStrict, h1, h2]
    omega
  | case3 a b =>
    intro h
    have ha : a < 256 := h a (by simp)
    have hb : b < 256 := h b (by simp)
    have h1 := decodeChar_eChar (a / 4) (by omega)
    have h2 := decodeChar_eChar (a % 4 * 16 + b / 16) (by omega)
    have h3 := decodeChar_eChar (b % 16 * 4) (by omega)
    have h3n := eChar_ne_pad (b % 16 * 4) (by omega)
    simp [encodePad, decodeStrict, h1, h2, h3, h3n]
    constructor <;> omega
  | case4 a b c rest ih =>
    intro h
    have ha : a < 256 := h a (by simp)
    have hb : b < 256 := h b (by simp)
    have hc : c < 256 := h c (by simp)
    have hrest : ∀ x ∈ rest, x < 256 := fun x hx => h x (by simp [hx])
    have h1 := decodeChar_eChar (a / 4) (by omega)
    have h2 := decodeChar_eChar (a % 4 * 16 + b / 16) (by omega)
    have h3 := decodeChar_eChar (b % 16 * 4 + c / 64) (by omega)
    have h4 := decodeChar_eChar (c % 64) (by omega)
    have h3n := eChar_ne_pad (b % 16 * 4 + c / 64) (by omega)
    have h4n := eChar_ne_pad (c % 64) (by omega)
    have hih := ih hrest
    rcases hr : encodePad rest with _ | ⟨x, xs⟩
    · have hrnil : rest = [] := (encodePad_eq_nil rest).mp hr
      subst hrnil
      simp [encodePad, decodeStrict, h1, h2, h3, h4, h3n, h4n, emitGroup]
      refine ⟨by omega, by omega, by omega⟩
    · rw [hr] at hih
      simp [encodePad, hr, decodeStrict, h1, h2, h3, h4, hih, emitGroup]
      refine ⟨by omega, by omega, by omega⟩

/-- C1: for every non-null input of non-zero length and every dialect, the
count returned by `SCBase64Decode` never exceeds the declared output
capacity (the input length) and is strictly less than the input length. -/
theorem scb64_decode_bounds (inp : List Nat) (mode : SCBase64Mode) (output : List Nat)
    (h : 0 < inp.length) :
    (SCBase64Decode (some inp) mode output).1 ≤ inp.length ∧
    (SCBase64Decode (some inp) mode output).1 < inp.length := by
  have hne : ¬ inp.length = 0 := by omega
  cases mode with
  | SCBase64ModeRFC2045 =>
    have hb := d2045core_length inp [] []
    simp only [SCBase64Decode, hne, if_false, decode_rfc2045]
    simp only [List.length_nil] at hb
    omega
  | SCBase64ModeRFC4648 =>
    have hb := d4648core_length inp [] []
    simp only [SCBase64Decode, hne, if_false, decode_rfc4648]
    simp only [List.length_nil] at hb
    omega
  | SCBase64ModeStrict =>
    cases hs : decodeStrict inp with
    | ok l =>
      have hb := decodeStrict_length inp l hs
      simp only [SCBase64Decode, hne, if_false, hs]
      omega
    | error e =>
      simp only [SCBase64Decode, hne, if_false, hs]
      simp
      omega
  | SCBase64ModeNoPad =>
    cases hs : decodeNoPad inp with
    | ok l =>
      have hb := decodeNoPad_length inp l hs
      simp only [SCBase64Decode, hne, if_false, hs]
      omega
    | error e =>
      simp only [SCBase64Decode, hne, if_false, hs]
      simp
      omega
  | SCBase64ModePadOpt =>
    cases hs : decodePadOpt inp with
    | ok l =>
      have hb := decodePadOpt_length inp l hs
      simp only [SCBase64Decode, hne, if_false, hs]
      omega
    | error e =>
      simp only [SCBase64Decode, hne, if_false, hs]
      simp
      omega

/-- C1 witness: the bounds at a concrete one-byte input. -/
theorem scb64_decode_bounds_witness :
    (SCBase64Decode (some [65]) .SCBase64ModeRFC2045 []).1 ≤ ([65] : List Nat).length ∧
    (SCBase64Decode (some [65]) .SCBase64ModeRFC2045 []).1 < ([65] : List Nat).length :=
  scb64_decode_bounds [65] .SCBase64ModeRFC2045 [] (by decide)

/-- C2: the claim says `SCBase64EncodeBufferSize n = ceil(n / 3) * 4 + 1` for
every `n`, and the doc comment above the function states the same formula;
the code computes `(4 * (n + 2)) / 3 + 1` instead, which differs at `n = 3`:
the code returns 7 where the documented formula gives 5. -/
theorem scb64_encode_buffer_size_mismatch :
    SCBase64EncodeBufferSize 3 = 7 ∧ specCeilBufferSize 3 = 5 ∧
    SCBase64EncodeBufferSize 3 ≠ specCeilBufferSize 3 := by decide

/-- C3: encoding any byte sequence under the strict standard dialect into a
sufficiently large buffer succeeds, and decoding the encoded text (the
written prefix of reported length, excluding the sentinel) under the strict
standard dialect yields exactly the original bytes. -/
theorem scb64_round_trip (b output dbuf : List Nat) (output_len : Nat)
    (hb : ∀ x ∈ b, x < 256)
    (hcap : (encodePad b).length + 1 ≤ output_len) :
    (SCBase64EncodeWithMode false false false b output output_len .SCBase64ModeStrict).status
      = .SC_BASE64_OK ∧
    SCBase64Decode
      (some (((SCBase64EncodeWithMode false false false b output output_len
          .SCBase64ModeStrict).output).take
        ((SCBase64EncodeWithMode false false false b output output_len
          .SCBase64ModeStrict).output_len)))
      .SCBase64ModeStrict dbuf = (b.length, b ++ dbuf.drop b.length) := by
  have hcond : ¬ (encodedFor .SCBase64ModeStrict b).length + 1 > output_len := by
    simp only [encodedFor]
    omega
  have henc : SCBase64EncodeWithMode false false false b output output_len
      .SCBase64ModeStrict =
      ⟨.SC_BASE64_OK, (encodePad b ++ [0]) ++ output.drop (encodePad b ++ [0]).length,
        (encodePad b).length⟩ := by
    simp [SCBase64EncodeWithMode, hcond, writeBytes, encodedFor]
    omega
  rw [henc]
  refine ⟨rfl, ?_⟩
  have htake : ((encodePad b ++ [0]) ++ output.drop (encodePad b ++ [0]).length).take
      (encodePad b).length = encodePad b := by
    rw [List.append_assoc]
    exact List.take_left (encodePad b) _
  simp only [htake]
  rcases hnil : b with _ | ⟨a, t⟩
  · simp [SCBase64Decode, encodePad]
  · rw [← hnil]
    have hbne : b ≠ [] := by rw [hnil]; simp
    have hene : ¬ (encodePad b).length = 0 := by
      rw [List.length_eq_zero]
      intro hx
      exact hbne ((encodePad_eq_nil b).mp hx)
    have hrt := decodeStrict_encodePad b hb
    simp [SCBase64Decode, hene, hrt, writeBytes]

/-- C3 witness: the round trip at the concrete input `foo`. -/
theorem scb64_round_trip_witness :
    (SCBase64EncodeWithMode false false false [102, 111, 111] (List.replicate 5 9) 5
        .SCBase64ModeStrict).status = .SC_BASE64_OK ∧
    SCBase64Decode
      (some (((SCBase64EncodeWithMode false false false [102, 111, 111] (List.replicate 5 9) 5
          .SCBase64ModeStrict).output).take
        ((SCBase64EncodeWithMode false false false [102, 111, 111] (List.replicate 5 9) 5
          .SCBase64ModeStrict).output_len)))
      .SCBase64ModeStrict [3, 3, 3] =
      (([102, 111, 111] : List Nat).length, [102, 111, 111] ++ ([3, 3, 3] : List Nat).drop 3) :=
  scb64_round_trip [102, 111, 111] (List.replicate 5 9) [3, 3, 3] 5 (by decide) (by decide)

/-- C4: whenever the encoded length plus one (for the sentinel) exceeds the
declared capacity, `SCBase64EncodeWithMode` returns the overflow status,
writes nothing to the output buffer and leaves the capacity value
unmodified. -/
theorem scb64_encode_overflow_status (input output : List Nat) (output_len : Nat)
    (mode : SCBase64Mode)
    (h : (encodedFor mode input).length + 1 > output_len) :
    SCBase64EncodeWithMode false false false input output output_len mode =
      ⟨.SC_BASE64_OVERFLOW, output, output_len⟩ := by
  simp [SCBase64EncodeWithMode, h]

set_option maxRecDepth 4000 in
/-- C4 witness: a 100-byte input declared into a 10-byte buffer overflows
and nothing is written. -/
theorem scb64_encode_overflow_status_witness :
    SCBase64EncodeWithMode false false false (List.replicate 100 97) (List.replicate 10 7) 10
      .SCBase64ModeStrict = ⟨.SC_BASE64_OVERFLOW, List.replicate 10 7, 10⟩ :=
  scb64_encode_overflow_status (List.replicate 100 97) (List.replicate 10 7) 10
    .SCBase64ModeStrict (by decide)

/-- C5: under the stop dialect (RFC 4648 mode), decoding halts at the first
byte outside the alphabet: both `Zm 9v` and `Zm$9v` decode to exactly 1
byte, the byte `f` (102), regardless of the output buffer contents. -/
theorem scb64_stop_dialect_vectors : ∀ output : List Nat,
    (SCBase64Decode (some [90, 109, 32, 57, 118]) .SCBase64ModeRFC4648 output).1 = 1 ∧
    ((SCBase64Decode (some [90, 109, 32, 57, 118]) .SCBase64ModeRFC4648 output).2).head?
      = some 102 ∧
    (SCBase64Decode (some [90, 109, 36, 57, 118]) .SCBase64ModeRFC4648 output).1 = 1 ∧
    ((SCBase64Decode (some [90, 109, 36, 57, 118]) .SCBase64ModeRFC4648 output).2).head?
      = some 102 := by
  intro output
  exact ⟨rfl, rfl, rfl, rfl⟩

/-- C6: `SCBase64Decode` always returns a plain byte count (it is a total
function into a count); an error from any of the three canonical strict
decoders collapses to the count 0, never to a distinct error value. -/
theorem scb64_decode_total_collapse : ∀ (inp output : List Nat),
    (decodeStrict inp = .error () →
      (SCBase64Decode (some inp) .SCBase64ModeStrict output).1 = 0) ∧
    (decodeNoPad inp = .error () →
      (SCBase64Decode (some inp) .SCBase64ModeNoPad output).1 = 0) ∧
    (decodePadOpt inp = .error () →
      (SCBase64Decode (some inp) .SCBase64ModePadOpt output).1 = 0) := by
  intro inp output
  refine ⟨?_, ?_, ?_⟩ <;> intro h <;> by_cases hz : inp.length = 0 <;>
    simp [SCBase64Decode, hz, h]

/-- C6 witness: on the all-invalid input `!` the strict decoder errors and
the call returns the count 0. -/
theorem scb64_decode_total_collapse_witness :
    (SCBase64Decode (some [33]) .SCBase64ModeStrict []).1 = 0 :=
  (scb64_decode_total_collapse [33] []).1 rfl

/-- C7: on every successful encode, `SCBase64EncodeWithMode` has written the
encoded text followed immediately by a single zero sentinel byte, and the
in/out capacity parameter is overwritten with the encoded length excluding
the sentinel. -/
theorem scb64_encode_ok_shape (input output : List Nat) (output_len : Nat)
    (mode : SCBase64Mode)
    (h : (SCBase64EncodeWithMode false false false input output output_len mode).status =
      .SC_BASE64_OK) :
    SCBase64EncodeWithMode false false false input output output_len mode =
      ⟨.SC_BASE64_OK,
        encodedFor mode input ++ 0 :: output.drop ((encodedFor mode input).length + 1),
        (encodedFor mode input).length⟩ := by
  by_cases hc : (encodedFor mode input).length + 1 > output_len
  · simp [SCBase64EncodeWithMode, hc] at h
  · simp [SCBase64EncodeWithMode, hc, writeBytes]

/-- C7 witness: encoding `foo` into a 7-byte buffer writes `Zm9v`, the zero
sentinel, and reports length 4. -/
theorem scb64_encode_ok_shape_witness :
    SCBase64EncodeWithMode false false false [102, 111, 111] (List.replicate 7 9) 7
      .SCBase64ModeStrict =
      ⟨.SC_BASE64_OK,
        encodedFor .SCBase64ModeStrict [102, 111, 111] ++
          0 :: (List.replicate 7 9).drop
            ((encodedFor .SCBase64ModeStrict [102, 111, 111]).length + 1),
        (encodedFor .SCBase64ModeStrict [102, 111, 111]).length⟩ :=
  scb64_encode_ok_shape [102, 111, 111] (List.replicate 7 9) 7 .SCBase64ModeStrict (by decide)

/-- C8: for every dialect, a null input pointer or a zero input length makes
`SCBase64Decode` return 0 decoded bytes and leave the output buffer
untouched. -/
theorem scb64_decode_null_or_empty (input : Option (List Nat)) (mode : SCBase64Mode)
    (output : List Nat)
    (h : input = none ∨ ∃ l, input = some l ∧ l.length = 0) :
    SCBase64Decode input mode output = (0, output) := by
  rcases h with h | ⟨l, hl, hlen⟩
  · subst h; rfl
  · subst hl; simp [SCBase64Decode, hlen]

/-- C8 witness: the null-pointer case at a concrete buffer. -/
theorem scb64_decode_null_or_empty_witness :
    SCBase64Decode none .SCBase64ModeRFC2045 [7, 7] = (0, [7, 7]) :=
  scb64_decode_null_or_empty none .SCBase64ModeRFC2045 [7, 7] (Or.inl rfl)

/-- C9 counterexample: the claim says no intermediate wrap for every `n` in
the unsigned 64-bit input type, but at `n = 2 ^ 64 - 2` the sum `n + 2`
wraps to 0, so the function returns 1 while the un-wrapped value of the
size expression is 24595658764946068822. -/
theorem scb64_buffer_size_wraps :
    SCBase64EncodeBufferSize (2 ^ 64 - 2) = 1 ∧
    4 * ((2 ^ 64 - 2) + 2) / 3 + 1 = 24595658764946068822 ∧
    SCBase64EncodeBufferSize (2 ^ 64 - 2) ≠ 4 * ((2 ^ 64 - 2) + 2) / 3 + 1 := by decide

/-- C9 amended: for every `n ≤ 2 ^ 62 - 3` no intermediate operation wraps
modulo `2 ^ 64`, and `SCBase64EncodeBufferSize n` is the true mathematical
value `4 * (n + 2) / 3 + 1` of the size expression. -/
theorem scb64_buffer_size_no_wrap (n : Nat) (h : n ≤ 2 ^ 62 - 3) :
    SCBase64EncodeBufferSize n = 4 * (n + 2) / 3 + 1 := by
  unfold SCBase64EncodeBufferSize ULONG_MOD
  have h1 : (n + 2) % 2 ^ 64 = n + 2 := Nat.mod_eq_of_lt (by omega)
  have h2 : 4 * (n + 2) % 2 ^ 64 = 4 * (n + 2) := Nat.mod_eq_of_lt (by omega)
  rw [h1, h2]
  exact Nat.mod_eq_of_lt (by omega)

/-- C9 amended witness: the exact value at `n = 5`. -/
theorem scb64_buffer_size_no_wrap_witness :
    SCBase64EncodeBufferSize 5 = 4 * (5 + 2) / 3 + 1 :=
  scb64_buffer_size_no_wrap 5 (by norm_num)

/-- C10: the encoder's behaviour depends only on whether the mode is
`SCBase64ModeNoPad`: every other mode gives the result of the strict mode,
and `SCBase64Encode` is exactly `SCBase64EncodeWithMode` at the strict
mode. -/
theorem scb64_encode_mode_collapse (inN outN lenN : Bool) (input output : List Nat)
    (output_len : Nat) (mode : SCBase64Mode) (h : mode ≠ .SCBase64ModeNoPad) :
    (SCBase64EncodeWithMode inN outN lenN input output output_len mode =
      SCBase64EncodeWithMode inN outN lenN input output output_len .SCBase64ModeStrict) ∧
    SCBase64Encode inN outN lenN input output output_len =
      SCBase64EncodeWithMode inN outN lenN input output output_len .SCBase64ModeStrict := by
  constructor
  · cases mode <;> simp_all [SCBase64EncodeWithMode, encodedFor]
  · rfl

/-- C10 witness: RFC 2045 mode encodes exactly as the strict mode on a
concrete call. -/
theorem scb64_encode_mode_collapse_witness :
    (SCBase64EncodeWithMode false false false [102] [0, 0, 0, 0, 0, 0] 6 .SCBase64ModeRFC2045 =
      SCBase64EncodeWithMode false false false [102] [0, 0, 0, 0, 0, 0] 6
        .SCBase64ModeStrict) ∧
    SCBase64Encode false false false [102] [0, 0, 0, 0, 0, 0] 6 =
      SCBase64EncodeWithMode false false false [102] [0, 0, 0, 0, 0, 0] 6
        .SCBase64ModeStrict :=
  scb64_encode_mode_collapse false false false [102] [0, 0, 0, 0, 0, 0] 6
    .SCBase64ModeRFC2045 (by decide)

end Base64Spec
